import Mathlib

/-!
# Verification of the monarch-stems client (src/index.ts)

Shallow embedding of the validation, URL-construction, response-parsing and
error-mapping layer of the `StemSeparatorClient` TypeScript library, together
with proofs settling the frozen claims about it.

Modelling conventions:
* JavaScript strings are Lean `String`s; all character-level operations are
  defined over `String.data : List Char`.
* `String.prototype.trim` is modelled by `jsTrim`, trimming the JS whitespace
  set (ASCII whitespace plus NBSP, BOM and the Unicode line separators).
* JSON/JS runtime values (the `unknown` results of `res.json()` and axios
  payloads) are modelled by `JValue`; JS numbers are `Rat` (finite JSON
  numbers; `NaN`/`Infinity` do not occur in parsed JSON).
* A JS object is modelled as an association list of its (unique) own
  properties; missing-property access yields `none` (JS `undefined`).
* Functions that `throw StemSeparatorError` are modelled with
  `Except StemSeparatorError`.
-/

namespace MonarchStems

-- ---------------------------------------------------------------------------
-- String machinery (JS semantics over List Char)
-- ---------------------------------------------------------------------------

/-- The JS whitespace characters recognized by `String.prototype.trim`
(ASCII whitespace, NBSP, BOM, and Unicode line/paragraph separators). -/
def jsIsWs (c : Char) : Bool :=
  c == ' ' || c == '\t' || c == '\n' || c == '\r' ||
  c.toNat == 0x0b || c.toNat == 0x0c || c.toNat == 0xa0 ||
  c.toNat == 0x2028 || c.toNat == 0x2029 || c.toNat == 0xfeff

/-- Trim JS whitespace from both ends of a character list. -/
def trimList (cs : List Char) : List Char :=
  ((cs.dropWhile jsIsWs).reverse.dropWhile jsIsWs).reverse

/-- Model of `String.prototype.trim`. -/
def jsTrim (s : String) : String :=
  String.mk (trimList s.data)

/-- Predicate `listHasPre pat s` holds when `pat` is a prefix of `s`. -/
def listHasPre (pat s : List Char) : Bool :=
  match pat, s with
  | [], _ => true
  | _ :: _, [] => false
  | p :: ps, c :: cs => p == c && listHasPre ps cs

/-- Predicate `listHasSub pat s` holds when `pat` occurs as a contiguous substring of
`s`: the model of `String.prototype.includes` and of matching a regex that is
an alternation of literal strings. -/
def listHasSub (pat s : List Char) : Bool :=
  match s with
  | [] => pat.isEmpty
  | _ :: cs => listHasPre pat s || listHasSub pat cs

/-- Model of `s.includes(pat)`. -/
def strIncludes (s pat : String) : Bool :=
  listHasSub pat.data s.data

/-- Test `strStartsWith s p`: `p` is a prefix of `s`. -/
def strStartsWith (s p : String) : Bool :=
  listHasPre p.data s.data

/-- Drop the trailing run of `/` characters: model of `.replace(/\/+$/, '')`. -/
def stripTrailingSlashes (s : String) : String :=
  String.mk ((s.data.reverse.dropWhile (fun c => c == '/')).reverse)

-- ---------------------------------------------------------------------------
-- JS runtime values (the `unknown` payloads)
-- ---------------------------------------------------------------------------

/-- A JS/JSON runtime value. Numbers are rationals (finite JSON numbers).
`obj` carries the object's own properties as an association list with unique
keys (a JS object cannot have duplicate property names). -/
inductive JValue where
  | null : JValue
  | bool (b : Bool) : JValue
  | num (q : Rat) : JValue
  | str (s : String) : JValue
  | arr (xs : List JValue) : JValue
  | obj (fields : List (String × JValue)) : JValue

/-- Property access `v.k`: `some` for a present property, `none` for JS
`undefined` (missing property, or access on a non-object such as a JSON
array, which has no named string keys). -/
def jGet (v : JValue) (k : String) : Option JValue :=
  match v with
  | .obj fields => fields.lookup k
  | _ => none

/-- Check `typeof v === 'object' && v !== null` (JS arrays are `typeof 'object'`). -/
def jIsObjectType (v : JValue) : Bool :=
  match v with
  | .arr _ => true
  | .obj _ => true
  | _ => false

/-- Decimal rendering of a JS number, used by template literals and
`String(...)`. Integral values render as in JS; non-integral rationals are
rendered `num/den` (a model simplification of JS double formatting — no claim
depends on the non-integral case). -/
def jsNumToString (q : Rat) : String :=
  if q.den = 1 then toString q.num else toString q

/-- JS `ToString` on a runtime value (`String(x)`): objects render as
`"[object Object]"`, arrays as their comma-join with `null` elements
rendered empty. -/
def jsToString : JValue → String
  | .null => "null"
  | .bool b => if b then "true" else "false"
  | .num q => jsNumToString q
  | .str s => s
  | .arr xs => jsArrJoin xs
  | .obj _ => "[object Object]"
where
  /-- `Array.prototype.toString` = `join(',')`. -/
  jsArrJoin : List JValue → String
  | [] => ""
  | [x] => jsElemToString x
  | x :: y :: xs => jsElemToString x ++ "," ++ jsArrJoin (y :: xs)
  /-- Array elements: `null`/`undefined` render as the empty string. -/
  jsElemToString : JValue → String
  | .null => ""
  | v => jsToString v

-- ---------------------------------------------------------------------------
-- Errors (class StemSeparatorError, const ErrorCode)
-- ---------------------------------------------------------------------------

/-- Stable error codes (`ErrorCode` in src/index.ts). -/
inductive ErrorCode where
  | INVALID_ARGUMENT
  | API_ERROR
  | NETWORK_ERROR
  | TIMEOUT
  | INVALID_RESPONSE
deriving DecidableEq, Repr

/-- The thrown error value: message, stable code, optional HTTP status.
The opaque `cause` field of the TS class is not modelled (it carries no
behaviour). -/
structure StemSeparatorError where
  message : String
  code : ErrorCode
  status : Option Rat := none
deriving DecidableEq, Repr

-- ---------------------------------------------------------------------------
-- Constants (src/index.ts lines 13-38)
-- ---------------------------------------------------------------------------

def DEFAULT_BASE_URL : String := "https://stem-separator-api-production.up.railway.app"

def DEFAULT_TIMEOUT_MS : Rat := 300000

def HEALTH_TIMEOUT_MS : Rat := 10000

def API_PATH_SEPARATE : String := "/api/v1/separate"

def API_PATH_DOWNLOAD : String := "/api/v1/separate"

def API_PATH_HEALTH : String := "/health"

def DEFAULT_FILENAME : String := "audio"

def VALID_STEMS : List String := ["2stems", "4stems", "5stems"]

def VALID_FORMATS : List String := ["wav", "mp3", "flac", "m4a", "aac", "ogg"]

-- ---------------------------------------------------------------------------
-- Percent encoding (encodeURIComponent / URLSearchParams)
-- ---------------------------------------------------------------------------

/-- Upper-case hex digit for a nibble. -/
def hexDigitChar (n : Nat) : Char :=
  if n < 10 then Char.ofNat (48 + n) else Char.ofNat (55 + n)

/-- Percent escape `%HH` of one byte. -/
def percentEncodeByte (b : Nat) : List Char :=
  ['%', hexDigitChar (b / 16), hexDigitChar (b % 16)]

/-- UTF-8 bytes of a character (URLs are encoded over the UTF-8 form). -/
def utf8BytesOfChar (c : Char) : List Nat :=
  let n := c.toNat
  if n < 0x80 then [n]
  else if n < 0x800 then
    [0xc0 + n / 64, 0x80 + n % 64]
  else if n < 0x10000 then
    [0xe0 + n / 4096, 0x80 + (n / 64) % 64, 0x80 + n % 64]
  else
    [0xf0 + n / 262144, 0x80 + (n / 4096) % 64, 0x80 + (n / 64) % 64, 0x80 + n % 64]

/-- The characters `encodeURIComponent` leaves unescaped:
`A-Z a-z 0-9 - _ . ! ~ * ' ( )`. -/
def isUriUnescaped (c : Char) : Bool :=
  (('A' ≤ c && c ≤ 'Z') || ('a' ≤ c && c ≤ 'z') || ('0' ≤ c && c ≤ '9')) ||
  c == '-' || c == '_' || c == '.' || c == '!' || c == '~' || c == '*' ||
  c.toNat == 39 || c == '(' || c == ')'

/-- Model of JS `encodeURIComponent`. -/
def encodeURIComponent (s : String) : String :=
  String.mk (s.data.flatMap fun c =>
    if isUriUnescaped c then [c] else (utf8BytesOfChar c).flatMap percentEncodeByte)

/-- The characters `URLSearchParams` serialization leaves unescaped
(`application/x-www-form-urlencoded`): `A-Z a-z 0-9 * - . _` (space becomes
`+`). -/
def isFormUrlUnescaped (c : Char) : Bool :=
  (('A' ≤ c && c ≤ 'Z') || ('a' ≤ c && c ≤ 'z') || ('0' ≤ c && c ≤ '9')) ||
  c == '*' || c == '-' || c == '.' || c == '_'

/-- Model of `URLSearchParams` value serialization. -/
def formUrlEncode (s : String) : String :=
  String.mk (s.data.flatMap fun c =>
    if c == ' ' then ['+']
    else if isFormUrlUnescaped c then [c]
    else (utf8BytesOfChar c).flatMap percentEncodeByte)

-- ---------------------------------------------------------------------------
-- Validation (src/index.ts lines 162-240)
-- ---------------------------------------------------------------------------

/-- Input type `SeparateInput`: `null`/`undefined`, a path string, or a binary payload
(`File`/`Blob`/`Buffer`/`Readable`, indistinguishable to the validator). -/
inductive SeparateInput where
  | nullish : SeparateInput
  | str (s : String) : SeparateInput
  | binary : SeparateInput
deriving DecidableEq

/-- Validator `assertValidFileInput` (src/index.ts lines 162-176). -/
def assertValidFileInput (file : SeparateInput) : Except StemSeparatorError Unit :=
  match file with
  | .nullish => .error ⟨"file is required", .INVALID_ARGUMENT, none⟩
  | .str s =>
    if (trimList s.data).isEmpty then
      .error ⟨"file path cannot be empty", .INVALID_ARGUMENT, none⟩
    else .ok ()
  | .binary => .ok ()

/-- Validator `normalizeBaseUrl` (src/index.ts lines 178-186): trim, reject empty,
strip trailing `/` characters. -/
def normalizeBaseUrl (baseUrl : String) : Except StemSeparatorError String :=
  let trimmed := jsTrim baseUrl
  if trimmed.data.isEmpty then
    .error ⟨"baseUrl is required", .INVALID_ARGUMENT, none⟩
  else .ok (stripTrailingSlashes trimmed)

/-- Validator `assertValidJobId` (src/index.ts lines 188-201): trim, reject empty,
reject when the trimmed id matches `/\.\.|\/|\\/` (contains `..`, `/`, or
`\`). -/
def assertValidJobId (jobId : String) : Except StemSeparatorError Unit :=
  let trimmed := jsTrim jobId
  if trimmed.data.isEmpty then
    .error ⟨"jobId is required", .INVALID_ARGUMENT, none⟩
  else if strIncludes trimmed ".." || strIncludes trimmed "/" || strIncludes trimmed "\\" then
    .error ⟨"jobId must not contain path segments", .INVALID_ARGUMENT, none⟩
  else .ok ()

/-- A JS regex line terminator (not matched by `.`). -/
def isLineTerm (c : Char) : Bool :=
  c == '\n' || c == '\r' || c.toNat == 0x2028 || c.toNat == 0x2029

/-- A directory separator, the class `[/\\]`. -/
def isSep (c : Char) : Bool :=
  c == '/' || c == '\\'

/-- Suffix after the last separator of a list, `none` when no separator
occurs. -/
def afterLastSep (cs : List Char) : Option (List Char) :=
  match cs with
  | [] => none
  | c :: tl =>
    match afterLastSep tl with
    | some r => some r
    | none => if isSep c then some tl else none

/-- Model of `filename.replace(/^.*[/\\]/, '')`: remove the longest prefix
consisting of non-line-terminator characters followed by a `/` or `\` (the
regex `.` does not match line terminators, so the removed prefix cannot cross
one). When no such prefix exists the string is unchanged. -/
def stripDirSegs (cs : List Char) : List Char :=
  let line := cs.takeWhile (fun c => !isLineTerm c)
  let tail := cs.drop line.length
  match afterLastSep line with
  | some r => r ++ tail
  | none => cs

/-- Validator `sanitizeFilename` (src/index.ts lines 203-217): reject `..` anywhere in
the raw string; strip the directory prefix; trim; reject when the remainder
is empty. -/
def sanitizeFilename (filename : String) : Except StemSeparatorError String :=
  if strIncludes filename ".." then
    .error ⟨"filename must not contain ..", .INVALID_ARGUMENT, none⟩
  else
    let base := trimList (stripDirSegs filename.data)
    if base.isEmpty then
      .error ⟨"filename is required and must not be empty", .INVALID_ARGUMENT, none⟩
    else .ok (String.mk base)

/-- Options type `SeparateOptions` (src/index.ts lines 59-68). Fields typed `StemsOption`
/ `FormatOption` in TS are runtime strings (types are erased) and the query
builder re-validates them, so they are modelled as strings. -/
structure SeparateOptions where
  filename : Option String := none
  stems : Option String := none
  bitrate : Option String := none
  format : Option String := none

/-- Builder `buildSeparateQueryString` (src/index.ts lines 219-232): emit `stems`
only when recognized, `bitrate` only when non-blank (trimmed), `format` only
when recognized; prepend `?` when non-empty. A `some ""` option is falsy in
JS and skipped, which the membership/emptiness checks already give. -/
def buildSeparateQueryString (options : SeparateOptions) : String :=
  let params : List (String × String) :=
    (match options.stems with
      | some s => if s ≠ "" && VALID_STEMS.contains s then [("stems", s)] else []
      | none => []) ++
    (match options.bitrate with
      | some b => if b ≠ "" && !(trimList b.data).isEmpty then [("bitrate", jsTrim b)] else []
      | none => []) ++
    (match options.format with
      | some f => if f ≠ "" && VALID_FORMATS.contains f then [("format", f)] else []
      | none => [])
  let qs := String.intercalate "&" (params.map fun p => p.1 ++ "=" ++ formUrlEncode p.2)
  if qs.data.isEmpty then "" else "?" ++ qs

/-- Builder `getAuthHeaders` (src/index.ts lines 234-240). -/
def getAuthHeaders (apiKey : String) : List (String × String) :=
  if apiKey ≠ "" && !(trimList apiKey.data).isEmpty then
    [("Authorization", "Bearer " ++ jsTrim apiKey)]
  else []

-- ---------------------------------------------------------------------------
-- Response parsing (src/index.ts lines 242-298)
-- ---------------------------------------------------------------------------

/-- Result type `SeparateResponse` (src/index.ts lines 71-78). `stems` is a runtime
string drawn from `VALID_STEMS` by the parser. -/
structure SeparateResponse where
  success : Bool
  message : String
  job_id : String
  stems : String
  output_files : List String
  processing_time : Rat
deriving DecidableEq, Repr

/-- Parser `parseSeparateResponse` (src/index.ts lines 243-298). The checks run in
source order: non-object body; `success === false` (ApiError); `success !==
true`; `job_id` not a non-blank string; `output_files` not an array;
otherwise the defaulted result is built. -/
def parseSeparateResponse (body : JValue) : Except StemSeparatorError SeparateResponse :=
  if !jIsObjectType body then
    .error ⟨"API response is not an object", .INVALID_RESPONSE, none⟩
  else
    match jGet body "success" with
    | some (.bool false) =>
      .error ⟨(match jGet body "message" with
                | some (.str m) => m
                | _ => "Separation failed"),
              .API_ERROR,
              (match jGet body "status" with
                | some (.num n) => some n
                | _ => none)⟩
    | some (.bool true) =>
      match jGet body "job_id" with
      | some (.str jobId) =>
        if (trimList jobId.data).isEmpty then
          .error ⟨"API response missing valid job_id", .INVALID_RESPONSE, none⟩
        else
          match jGet body "output_files" with
          | some (.arr files) =>
            .ok { success := true
                  message := match jGet body "message" with
                    | some (.str m) => m
                    | _ => ""
                  job_id := jobId
                  stems := match jGet body "stems" with
                    | some (.str s) => if VALID_STEMS.contains s then s else "2stems"
                    | _ => "2stems"
                  output_files := files.filterMap fun f =>
                    match f with
                    | .str s => if s.data.isEmpty then none else some s
                    | _ => none
                  processing_time := match jGet body "processing_time" with
                    | some (.num p) => if 0 ≤ p then p else 0
                    | _ => 0 }
          | _ => .error ⟨"API response missing output_files array", .INVALID_RESPONSE, none⟩
      | _ => .error ⟨"API response missing valid job_id", .INVALID_RESPONSE, none⟩
    | _ => .error ⟨"API response missing success: true", .INVALID_RESPONSE, none⟩

-- ---------------------------------------------------------------------------
-- Legacy (axios) error mapping (src/index.ts lines 355-386)
-- ---------------------------------------------------------------------------

/-- The shape `throwAxiosError` reads off an unknown caught value: an
optional `response` (with optional numeric `status` and arbitrary `data`)
and an optional `message` string. -/
structure AxiosResponseShape where
  status : Option Rat := none
  data : JValue := .null

/-- The caught error value, as destructured by `throwAxiosError`. -/
structure AxiosLikeError where
  response : Option AxiosResponseShape := none
  message : Option String := none

/-- Template-literal rendering of `status` (possibly `undefined`) inside
`` `API error: ${status}` ``. -/
def statusTemplate (status : Option Rat) : String :=
  match status with
  | none => "undefined"
  | some q => jsNumToString q

/-- Mapper `throwAxiosError` (src/index.ts lines 355-386), returning the error it
throws. Response-bearing failures map to `API_ERROR` (message from the
body's `detail` property via `String(...)` when the body is an object
carrying one, else `API error: ${status}`); otherwise a message containing
`"timeout"` maps to `TIMEOUT`; otherwise `NETWORK_ERROR` (with the error's
own message when present, else the supplied fallback). -/
def throwAxiosError (err : AxiosLikeError) (onTimeout onNetwork : String) :
    StemSeparatorError :=
  match err.response with
  | some resp =>
    { message :=
        match resp.data with
        | .obj fields =>
          match fields.lookup "detail" with
          | some d => jsToString d
          | none => "API error: " ++ statusTemplate resp.status
        | _ => "API error: " ++ statusTemplate resp.status
      code := .API_ERROR
      status := resp.status }
  | none =>
    match err.message with
    | some m =>
      if strIncludes m "timeout" then ⟨onTimeout, .TIMEOUT, none⟩
      else ⟨m, .NETWORK_ERROR, none⟩
    | none => ⟨onNetwork, .NETWORK_ERROR, none⟩

-- ---------------------------------------------------------------------------
-- Client (src/index.ts lines 434-616)
-- ---------------------------------------------------------------------------

/-- Options type `StemSeparatorClientOptions` (src/index.ts lines 44-51); `timeout` is a
JS number. -/
structure StemSeparatorClientOptions where
  baseUrl : Option String := none
  apiKey : Option String := none
  timeout : Option Rat := none

/-- The private readonly fields of a constructed `StemSeparatorClient`.
They are set once by the constructor and never reassigned (all are
`private readonly`), so a value of this type is immutable configuration. -/
structure ClientState where
  baseUrl : String
  apiKey : String
  timeout : Rat
deriving DecidableEq, Repr

/-- The `StemSeparatorClient` constructor (src/index.ts lines 439-450):
normalize the (trimmed) configured or default base URL, default the API key
to `""`, default the timeout and reject values below 1. -/
def mkClient (options : StemSeparatorClientOptions) : Except StemSeparatorError ClientState := do
  let base ← normalizeBaseUrl
    (match options.baseUrl with
      | some u => jsTrim u
      | none => DEFAULT_BASE_URL)
  let timeout := options.timeout.getD DEFAULT_TIMEOUT_MS
  if timeout < 1 then
    .error ⟨"timeout must be a positive number", .INVALID_ARGUMENT, none⟩
  else
    .ok ⟨base, options.apiKey.getD "", timeout⟩

/-- The outbound request `separate` has fully assembled at the moment it
reaches the transport (fetch/axios): URL, multipart filename, and auth
headers. -/
structure PreparedSeparateRequest where
  url : String
  filename : String
  authHeaders : List (String × String)
deriving DecidableEq, Repr

/-- The multipart filename expression of `separate` (src/index.ts lines
466-469): `options.filename?.trim() && options.filename.trim().length > 0 ?
sanitizeFilename(options.filename.trim()) : DEFAULT_FILENAME`. -/
def computeMultipartFilename (options : SeparateOptions) : Except StemSeparatorError String :=
  match options.filename with
  | some f =>
    if !(trimList f.data).isEmpty then sanitizeFilename (jsTrim f)
    else pure DEFAULT_FILENAME
  | none => pure DEFAULT_FILENAME

/-- The pure pre-transport phase of `separate` (src/index.ts lines 461-475):
validate the file input, compute the multipart filename, build the query
string and URL, and collect auth headers. An `.error` here is thrown before
any network call is made. -/
def prepareSeparate (c : ClientState) (file : SeparateInput)
    (options : SeparateOptions) : Except StemSeparatorError PreparedSeparateRequest := do
  assertValidFileInput file
  let filename ← computeMultipartFilename options
  let queryString := buildSeparateQueryString options
  let url := c.baseUrl ++ API_PATH_SEPARATE ++ queryString
  pure ⟨url, filename, getAuthHeaders c.apiKey⟩

/-- Method `getStemDownloadUrl` (src/index.ts lines 530-536): validate the job id,
sanitize the filename, and build the download URL from percent-encoded
segments. Pure — no I/O happens in the source method. -/
def getStemDownloadUrl (c : ClientState) (jobId filename : String) :
    Except StemSeparatorError String := do
  assertValidJobId jobId
  let safeName ← sanitizeFilename filename
  pure (c.baseUrl ++ API_PATH_DOWNLOAD ++ "/" ++ encodeURIComponent jobId ++
        "/download/" ++ encodeURIComponent safeName)

/-- The URL targeted by `checkHealth` (src/index.ts line 588). -/
def healthUrl (c : ClientState) : String :=
  c.baseUrl ++ API_PATH_HEALTH

-- ---------------------------------------------------------------------------
-- Claim-side predicates and projections (phrased from the spec's conditions,
-- for stating the classification and refinement claims)
-- ---------------------------------------------------------------------------

/-- The parse result's error code, `none` for a successful parse. -/
def errorCodeOf (r : Except StemSeparatorError SeparateResponse) : Option ErrorCode :=
  match r with
  | .error e => some e.code
  | .ok _ => none

/-- The body is a plain object. -/
def jIsObjB (body : JValue) : Bool :=
  match body with
  | .obj _ => true
  | _ => false

/-- The body's success flag is explicitly `false`. -/
def successFalseB (body : JValue) : Bool :=
  match jGet body "success" with
  | some (.bool false) => true
  | _ => false

/-- The body is an object whose success flag is explicitly `false` (the
spec's ApiError condition for `parseSeparationResponse`). -/
def apiFailB (body : JValue) : Bool :=
  jIsObjB body && successFalseB body

/-- The body's success flag is explicitly `true`. -/
def successTrueB (body : JValue) : Bool :=
  match jGet body "success" with
  | some (.bool true) => true
  | _ => false

/-- The body's `job_id` is a string that is non-empty after trimming. -/
def jobIdOkB (body : JValue) : Bool :=
  match jGet body "job_id" with
  | some (.str j) => !(trimList j.data).isEmpty
  | _ => false

/-- The body's `output_files` is an array. -/
def outputFilesOkB (body : JValue) : Bool :=
  match jGet body "output_files" with
  | some (.arr _) => true
  | _ => false

/-- The spec's InvalidResponse condition: the body is not an object, or its
success flag is not explicitly `true`, or `job_id` is missing / not a string
/ empty after trimming, or `output_files` is not an array. -/
def invalidShapeB (body : JValue) : Bool :=
  !jIsObjB body || !successTrueB body || !jobIdOkB body || !outputFilesOkB body

/-- The ApiError message the spec prescribes: the body's `message` field if
textual, else the generic default. -/
def apiFailMessage (body : JValue) : String :=
  match jGet body "message" with
  | some (.str m) => m
  | _ => "Separation failed"

/-- The ApiError `httpStatus` the spec prescribes: the body's `status` field
when it is a number. -/
def apiFailStatus (body : JValue) : Option Rat :=
  match jGet body "status" with
  | some (.num n) => some n
  | _ => none

/-- Spec-side result `message`: the body's `message` when textual, else
`""`. -/
def specMessage (body : JValue) : String :=
  match jGet body "message" with
  | some (.str m) => m
  | _ => ""

/-- Spec-side result `stems`: the body's `stems` when it is one of the
recognized values, else `"2stems"`. -/
def specStems (body : JValue) : String :=
  match jGet body "stems" with
  | some (.str s) => if VALID_STEMS.contains s then s else "2stems"
  | _ => "2stems"

/-- Spec-side result `output_files`: the body's entries filtered to keep
only the non-empty strings. -/
def specOutputFiles (files : List JValue) : List String :=
  files.filterMap fun f =>
    match f with
    | .str s => if s.data.isEmpty then none else some s
    | _ => none

/-- Spec-side result `processing_time`: the body's `processing_time` when it
is a number `≥ 0`, else `0`. -/
def specProcessingTime (body : JValue) : Rat :=
  match jGet body "processing_time" with
  | some (.num p) => if 0 ≤ p then p else 0
  | _ => 0

/-- Modelled from the amended C4 wording, as an independent formulation of
`sanitizeFilename` to compare against: reject `..`; within the leading run
of non-line-terminator characters, drop everything up to the last `/` or `\`
(computed here from the reversed list rather than by the source's
prefix-removal recursion); trim; reject an empty remainder. -/
def specSanitize (filename : String) : Except StemSeparatorError String :=
  if strIncludes filename ".." then
    .error ⟨"filename must not contain ..", .INVALID_ARGUMENT, none⟩
  else
    let cs := filename.data
    let line := cs.takeWhile (fun c => !isLineTerm c)
    let tail := cs.drop line.length
    let stripped :=
      if line.any isSep then (line.reverse.takeWhile (fun c => !isSep c)).reverse ++ tail
      else cs
    let base := trimList stripped
    if base.isEmpty then
      .error ⟨"filename is required and must not be empty", .INVALID_ARGUMENT, none⟩
    else .ok (String.mk base)

/-- Check that `options.filename` is absent, or blank after trimming. -/
def optFilenameBlank (options : SeparateOptions) : Bool :=
  match options.filename with
  | some f => (trimList f.data).isEmpty
  | none => true

/-- Decidable equality for `Except` results, so concrete runs of the model
can be checked by `decide`. -/
instance {ε α : Type} [DecidableEq ε] [DecidableEq α] : DecidableEq (Except ε α) := fun a b =>
  match a, b with
  | .ok x, .ok y =>
    if h : x = y then .isTrue (by rw [h]) else .isFalse (by intro hc; cases hc; exact h rfl)
  | .error x, .error y =>
    if h : x = y then .isTrue (by rw [h]) else .isFalse (by intro hc; cases hc; exact h rfl)
  | .ok _, .error _ => .isFalse (by intro hc; cases hc)
  | .error _, .ok _ => .isFalse (by intro hc; cases hc)

-- ---------------------------------------------------------------------------
-- Helper lemmas
-- ---------------------------------------------------------------------------

theorem except_bind_ok {ε α β : Type} {e : Except ε α} {f : α → Except ε β} {b : β}
    (h : (e >>= f) = .ok b) : ∃ a, e = .ok a ∧ f a = .ok b := by
  cases e with
  | error err => simp [Bind.bind, Except.bind] at h
  | ok a => exact ⟨a, rfl, by simpa [Bind.bind, Except.bind] using h⟩

theorem listHasPre_refl_append (l m : List Char) : listHasPre l (l ++ m) = true := by
  induction l with
  | nil => rfl
  | cons c cs ih => simp [listHasPre, ih]

theorem strStartsWith_append (s t : String) : strStartsWith (s ++ t) s = true := by
  simp only [strStartsWith, String.data_append]
  exact listHasPre_refl_append _ _

theorem stripTrailingSlashes_no_trailing (s : String) :
    (stripTrailingSlashes s).data.getLast? ≠ some '/' := by
  intro hcontra
  have hdata : (stripTrailingSlashes s).data
      = (s.data.reverse.dropWhile (fun c => c == '/')).reverse := rfl
  rw [hdata, List.getLast?_reverse] at hcontra
  have h := List.head?_dropWhile_not (fun c => c == '/') s.data.reverse
  rw [hcontra] at h
  simp at h

theorem stripTrailingSlashes_idem (s : String) :
    stripTrailingSlashes (stripTrailingSlashes s) = stripTrailingSlashes s := by
  apply String.ext
  show ((stripTrailingSlashes s).data.reverse.dropWhile (fun c => c == '/')).reverse
      = (s.data.reverse.dropWhile (fun c => c == '/')).reverse
  have hdata : (stripTrailingSlashes s).data
      = (s.data.reverse.dropWhile (fun c => c == '/')).reverse := rfl
  rw [hdata, List.reverse_reverse, List.dropWhile_idempotent]

theorem normalizeBaseUrl_ok_eq (url r : String) (h : normalizeBaseUrl url = .ok r) :
    r = stripTrailingSlashes (jsTrim url) := by
  by_cases hc : (jsTrim url).data.isEmpty
  · simp [normalizeBaseUrl, hc] at h
  · simp [normalizeBaseUrl, hc] at h
    exact h.symm

theorem takeWhile_append_of_ex_not {α : Type} {p : α → Bool} (l m : List α)
    (h : l.any (fun a => !p a) = true) :
    (l ++ m).takeWhile p = l.takeWhile p := by
  induction l with
  | nil => simp at h
  | cons a tl ih =>
    simp only [List.cons_append, List.takeWhile_cons]
    by_cases ha : p a
    · have htl : tl.any (fun a => !p a) = true := by
        simpa [ha] using h
      simp [ha, ih htl]
    · simp [ha]

theorem afterLastSep_eq_none (cs : List Char) :
    afterLastSep cs = none ↔ cs.any isSep = false := by
  induction cs with
  | nil => simp [afterLastSep]
  | cons c tl ih =>
    simp only [afterLastSep, List.any_cons]
    cases h : afterLastSep tl with
    | some r =>
      have hany : tl.any isSep = true := by
        by_contra hc
        have := ih.mpr (by simpa using hc)
        rw [h] at this
        cases this
      simp [hany]
    | none =>
      have hany : tl.any isSep = false := ih.mp h
      by_cases hc : isSep c <;> simp [hc, hany]

theorem afterLastSep_eq_some (cs : List Char) (h : cs.any isSep = true) :
    afterLastSep cs = some ((cs.reverse.takeWhile (fun c => !isSep c)).reverse) := by
  induction cs with
  | nil => simp at h
  | cons c tl ih =>
    rw [List.any_cons] at h
    simp only [afterLastSep]
    cases htl : afterLastSep tl with
    | some r =>
      have hany : tl.any isSep = true := by
        by_contra hc
        have := (afterLastSep_eq_none tl).mpr (by simpa using hc)
        rw [htl] at this
        cases this
      have hr : r = (tl.reverse.takeWhile (fun c => !isSep c)).reverse := by
        rw [ih hany] at htl
        exact (Option.some.injEq _ _ ▸ htl).symm
      rw [List.reverse_cons, takeWhile_append_of_ex_not _ _ (by simpa using hany), hr]
    | none =>
      have hany : tl.any isSep = false := (afterLastSep_eq_none tl).mp htl
      have hc : isSep c = true := by
        rcases Bool.or_eq_true_iff.mp h with h' | h'
        · exact h'
        · rw [h'] at hany; cases hany
      have hall : ∀ a ∈ tl.reverse, (fun c => !isSep c) a = true := by
        intro a ha
        have : isSep a = false := by
          have := List.any_eq_false.mp hany
          exact Bool.not_eq_true _ ▸ (by simpa using this a (List.mem_reverse.mp ha))
        simp [this]
      rw [List.reverse_cons, List.takeWhile_append_of_pos hall]
      simp [hc]

theorem stripDirSegs_spec (cs : List Char) :
    stripDirSegs cs =
      if (cs.takeWhile (fun c => !isLineTerm c)).any isSep then
        ((cs.takeWhile (fun c => !isLineTerm c)).reverse.takeWhile
          (fun c => !isSep c)).reverse ++
          cs.drop (cs.takeWhile (fun c => !isLineTerm c)).length
      else cs := by
  unfold stripDirSegs
  dsimp only
  by_cases h : (cs.takeWhile fun c => !isLineTerm c).any isSep
  · rw [afterLastSep_eq_some _ h]
    simp [h]
  · rw [(afterLastSep_eq_none _).mpr (by simpa using h)]
    simp [h]

-- ---------------------------------------------------------------------------
-- Claim theorems
-- ---------------------------------------------------------------------------

/-- C3: for every `jobId` that is empty or whitespace-only after
trimming, or whose trimmed form contains `..`, `/`, or `\`,
`getStemDownloadUrl` fails with `INVALID_ARGUMENT`, regardless of the
`filename` argument (and of the client configuration). -/
theorem getStemDownloadUrl_rejects_bad_jobId (c : ClientState) (jobId filename : String)
    (h : trimList jobId.data = [] ∨
         strIncludes (jsTrim jobId) ".." = true ∨
         strIncludes (jsTrim jobId) "/" = true ∨
         strIncludes (jsTrim jobId) "\\" = true) :
    ∃ e, getStemDownloadUrl c jobId filename = .error e ∧ e.code = .INVALID_ARGUMENT := by
  have hjob : ∃ e, assertValidJobId jobId = .error e ∧ e.code = .INVALID_ARGUMENT := by
    by_cases h0 : (trimList jobId.data).isEmpty
    · refine ⟨⟨"jobId is required", .INVALID_ARGUMENT, none⟩, ?_, rfl⟩
      unfold assertValidJobId
      dsimp only
      rw [if_pos (by simpa [jsTrim] using h0)]
    · have hcond : (strIncludes (jsTrim jobId) ".." || strIncludes (jsTrim jobId) "/" ||
          strIncludes (jsTrim jobId) "\\") = true := by
        rcases h with h | h | h | h
        · exact absurd (by simp [h] : (trimList jobId.data).isEmpty = true) h0
        · rw [h]; simp
        · rw [h]; simp
        · rw [h]; simp
      refine ⟨⟨"jobId must not contain path segments", .INVALID_ARGUMENT, none⟩, ?_, rfl⟩
      unfold assertValidJobId
      dsimp only
      rw [if_neg (by simpa [jsTrim] using h0), if_pos (by simpa [jsTrim] using hcond)]
  obtain ⟨e, he, hcode⟩ := hjob
  exact ⟨e, by simp [getStemDownloadUrl, he, Bind.bind, Except.bind], hcode⟩

/-- C3 witness: the concrete job id `"../job"` is rejected with
`INVALID_ARGUMENT`. -/
theorem getStemDownloadUrl_rejects_bad_jobId_witness :
    ∃ e, getStemDownloadUrl ⟨"https://api.example.com", "", 300000⟩ "../job" "vocals.wav"
        = .error e ∧ e.code = .INVALID_ARGUMENT :=
  getStemDownloadUrl_rejects_bad_jobId _ _ _ (Or.inr (Or.inl (by decide)))

/-- C4 counterexample: the claim as stated is false. `sanitizeFilename`
trims the basename, so `"x "` (whose basename is the non-empty `"x "`)
yields `"x"`, not `"x "`; and the JS regex `.` does not cross line
terminators, so for `"a\nb/c"` (whose last `/` lies after a newline) nothing
is stripped and the result is `"a\nb/c"`, not the basename `"c"`. -/
theorem sanitizeFilename_claim_counterexample :
    sanitizeFilename "x " = .ok "x" ∧ ("x" : String) ≠ "x " ∧
    sanitizeFilename "a\nb/c" = .ok "a\nb/c" ∧ ("a\nb/c" : String) ≠ "c" := by
  refine ⟨by decide, by decide, by decide, by decide⟩

/-- C4 (amended): if the filename contains `..` anywhere,
`sanitizeFilename` fails with `INVALID_ARGUMENT`; otherwise it keeps the
text after the last `/` or `\` that lies within the leading run of
non-line-terminator characters (the replace regex's `.` does not match line
terminators), trims that remainder, fails with `INVALID_ARGUMENT` if the
trimmed remainder is empty, and otherwise returns it —
`sanitizeFilename "a/b/c.wav" = "c.wav"`. Stated as equality with
`specSanitize`, the independent formulation of that description. -/
theorem sanitizeFilename_characterization :
    (∀ filename : String, sanitizeFilename filename = specSanitize filename) ∧
    sanitizeFilename "a/b/c.wav" = .ok "c.wav" := by
  constructor
  · intro filename
    unfold sanitizeFilename specSanitize
    dsimp only
    rw [stripDirSegs_spec]
  · decide

/-- C5: a file input that is null/undefined, or a string that is empty
or whitespace-only after trimming, makes the pre-transport phase of
`separate` fail with `INVALID_ARGUMENT`: no request is ever assembled, so no
transport call is made. -/
theorem prepareSeparate_rejects_bad_file (c : ClientState) (options : SeparateOptions)
    (file : SeparateInput)
    (h : file = .nullish ∨ ∃ s, file = .str s ∧ trimList s.data = []) :
    ∃ e, prepareSeparate c file options = .error e ∧ e.code = .INVALID_ARGUMENT := by
  have hfile : ∃ e, assertValidFileInput file = .error e ∧ e.code = .INVALID_ARGUMENT := by
    rcases h with h | ⟨s, hs, ht⟩
    · exact ⟨⟨"file is required", .INVALID_ARGUMENT, none⟩,
        by simp [h, assertValidFileInput], rfl⟩
    · exact ⟨⟨"file path cannot be empty", .INVALID_ARGUMENT, none⟩,
        by simp [hs, assertValidFileInput, ht], rfl⟩
  obtain ⟨e, he, hcode⟩ := hfile
  exact ⟨e, by simp [prepareSeparate, he, Bind.bind, Except.bind], hcode⟩

/-- C5 witness: the whitespace-only path `"   "` is rejected with
`INVALID_ARGUMENT` before transport. -/
theorem prepareSeparate_rejects_bad_file_witness :
    ∃ e, prepareSeparate ⟨"https://api.example.com", "", 300000⟩ (.str "   ")
        ⟨none, none, none, none⟩ = .error e ∧ e.code = .INVALID_ARGUMENT :=
  prepareSeparate_rejects_bad_file _ _ _ (Or.inr ⟨"   ", rfl, by decide⟩)

/-- C6 counterexample: `normalizeBaseUrl` is not idempotent as claimed.
`normalizeBaseUrl "/"` succeeds with `""`, on which a second application
fails; and `normalizeBaseUrl "a /"` succeeds with `"a "`, on which a second
application yields `"a"` (stripping slashes can expose trailing whitespace
that the next trim removes). -/
theorem normalizeBaseUrl_idem_counterexample :
    normalizeBaseUrl "/" = .ok "" ∧
    normalizeBaseUrl "" = .error ⟨"baseUrl is required", .INVALID_ARGUMENT, none⟩ ∧
    normalizeBaseUrl "a /" = .ok "a " ∧
    normalizeBaseUrl "a " = .ok "a" ∧ ("a" : String) ≠ "a " := by
  refine ⟨by decide, by decide, by decide, by decide, by decide⟩

/-- C6 (amended): `normalizeBaseUrl` is idempotent on every input whose
result is non-empty and unchanged by trimming (no trailing whitespace
exposed by slash-stripping): reapplying it to such a result succeeds and
returns the same value (e.g. `"https://x///"` → `"https://x"` →
`"https://x"`). -/
theorem normalizeBaseUrl_idem (url r : String)
    (h : normalizeBaseUrl url = .ok r) (hr : jsTrim r = r) (hne : r ≠ "") :
    normalizeBaseUrl r = .ok r := by
  have heq : r = stripTrailingSlashes (jsTrim url) := normalizeBaseUrl_ok_eq url r h
  have hdata : r.data ≠ [] := fun hc => hne (String.ext (by simpa using hc))
  have hie : r.data.isEmpty = false := by
    simpa [List.isEmpty_iff] using hdata
  have hstrip : stripTrailingSlashes r = r := by
    rw [heq, stripTrailingSlashes_idem]
  simp [normalizeBaseUrl, hr, hie, hstrip]

/-- C6 witness: the amended idempotence at `"https://x///"`. -/
theorem normalizeBaseUrl_idem_witness :
    normalizeBaseUrl "https://x" = .ok "https://x" :=
  normalizeBaseUrl_idem "https://x///" "https://x" (by decide) (by decide) (by decide)

/-- C7 counterexample: the constructed client's `baseUrl` is not always
non-empty — `baseUrl: "/"` normalizes to `""` and construction succeeds. -/
theorem mkClient_nonempty_counterexample :
    ¬ (∀ (options : StemSeparatorClientOptions) (c : ClientState),
        mkClient options = .ok c → c.baseUrl ≠ "") := by
  intro hclaim
  exact hclaim ⟨some "/", none, none⟩ ⟨"", "", 300000⟩ (by decide) rfl

/-- C7 (amended): for every options value on which the constructor
succeeds, the stored `baseUrl` never ends with `/` (though it may be empty
when the configured URL trims to slashes only), and it is the unchanged
prefix of every request URL the client computes (separate, download,
health). Immutability holds by construction: `ClientState` is the
constructor's one-time snapshot of the `private readonly` fields. -/
theorem mkClient_baseUrl_invariant (options : StemSeparatorClientOptions) (c : ClientState)
    (h : mkClient options = .ok c) :
    c.baseUrl.data.getLast? ≠ some '/' ∧
    (∀ jobId filename u, getStemDownloadUrl c jobId filename = .ok u →
        strStartsWith u c.baseUrl = true) ∧
    (∀ file opts r, prepareSeparate c file opts = .ok r →
        strStartsWith r.url c.baseUrl = true) ∧
    strStartsWith (healthUrl c) c.baseUrl = true := by
  have hbase : ∃ u, c.baseUrl = stripTrailingSlashes (jsTrim u) := by
    unfold mkClient at h
    obtain ⟨base, hb, hrest⟩ := except_bind_ok h
    have hb' := normalizeBaseUrl_ok_eq _ _ hb
    dsimp only at hrest
    by_cases ht : (options.timeout.getD DEFAULT_TIMEOUT_MS) < 1
    · rw [if_pos ht] at hrest
      exact absurd hrest (by simp)
    · rw [if_neg ht] at hrest
      have hceq : (⟨base, options.apiKey.getD "", options.timeout.getD DEFAULT_TIMEOUT_MS⟩ :
          ClientState) = c := by simpa using hrest
      exact ⟨_, by rw [← hceq]; exact hb'⟩
  refine ⟨?_, ?_, ?_, ?_⟩
  · obtain ⟨u, hu⟩ := hbase
    rw [hu]
    exact stripTrailingSlashes_no_trailing _
  · intro jobId filename url hurl
    unfold getStemDownloadUrl at hurl
    obtain ⟨_, _, h2⟩ := except_bind_ok hurl
    obtain ⟨safeName, _, h3⟩ := except_bind_ok h2
    have : c.baseUrl ++ API_PATH_DOWNLOAD ++ "/" ++ encodeURIComponent jobId ++
        "/download/" ++ encodeURIComponent safeName = url := by
      simpa [pure, Except.pure] using h3
    rw [← this]
    simp only [String.append_assoc]
    exact strStartsWith_append _ _
  · intro file opts r hr
    unfold prepareSeparate at hr
    obtain ⟨_, _, h2⟩ := except_bind_ok hr
    obtain ⟨filename, _, h3⟩ := except_bind_ok h2
    have : (⟨c.baseUrl ++ API_PATH_SEPARATE ++ buildSeparateQueryString opts, filename,
        getAuthHeaders c.apiKey⟩ : PreparedSeparateRequest) = r := by
      simpa [pure, Except.pure] using h3
    rw [← this]
    simp only [String.append_assoc]
    exact strStartsWith_append _ _
  · unfold healthUrl
    exact strStartsWith_append _ _

/-- C7 witness: the invariant at a concretely constructed client. -/
theorem mkClient_baseUrl_invariant_witness :
    (⟨"https://api.example.com", "", 300000⟩ : ClientState).baseUrl.data.getLast? ≠ some '/' ∧
    (∀ jobId filename u,
        getStemDownloadUrl ⟨"https://api.example.com", "", 300000⟩ jobId filename = .ok u →
        strStartsWith u (⟨"https://api.example.com", "", 300000⟩ : ClientState).baseUrl = true) ∧
    (∀ file opts r,
        prepareSeparate ⟨"https://api.example.com", "", 300000⟩ file opts = .ok r →
        strStartsWith r.url (⟨"https://api.example.com", "", 300000⟩ : ClientState).baseUrl = true) ∧
    strStartsWith (healthUrl ⟨"https://api.example.com", "", 300000⟩)
      (⟨"https://api.example.com", "", 300000⟩ : ClientState).baseUrl = true :=
  mkClient_baseUrl_invariant ⟨some "https://api.example.com", none, none⟩ _ (by decide)

/-- C8: `getStemDownloadUrl` is a pure function of its arguments (it is
modelled — faithfully to the source, which performs no I/O in this method —
as a function), and on validated inputs returns exactly
`baseUrl ++ "/api/v1/separate/" ++ encodeURIComponent jobId ++ "/download/"
++ encodeURIComponent sanitizedName`. -/
theorem getStemDownloadUrl_formula (c : ClientState) (jobId filename safeName : String)
    (h1 : assertValidJobId jobId = .ok ())
    (h2 : sanitizeFilename filename = .ok safeName) :
    getStemDownloadUrl c jobId filename =
      .ok (c.baseUrl ++ "/api/v1/separate/" ++ encodeURIComponent jobId ++
           "/download/" ++ encodeURIComponent safeName) := by
  have hlit : ("/api/v1/separate/" : String) = "/api/v1/separate" ++ "/" := by decide
  rw [hlit]
  unfold getStemDownloadUrl
  rw [h1, h2]
  simp [pure, Except.pure, Bind.bind, Except.bind, API_PATH_DOWNLOAD, String.append_assoc]

/-- C8 witness: the formula at `jobId = "job-1"`,
`filename = "vocals.wav"`. -/
theorem getStemDownloadUrl_formula_witness :
    getStemDownloadUrl ⟨"https://api.example.com", "", 300000⟩ "job-1" "vocals.wav" =
      .ok ("https://api.example.com" ++ "/api/v1/separate/" ++ encodeURIComponent "job-1" ++
           "/download/" ++ encodeURIComponent "vocals.wav") :=
  getStemDownloadUrl_formula ⟨"https://api.example.com", "", 300000⟩ "job-1" "vocals.wav"
    "vocals.wav" (by decide) (by decide)

/-- C10: in `separate`'s pre-transport phase, an absent or blank (after
trimming) `options.filename` silently falls back to the default `"audio"`
without ever invoking `sanitizeFilename` — so it cannot raise
`INVALID_ARGUMENT` — while a non-blank `options.filename` is trimmed and
then sanitized, propagating `sanitizeFilename`'s outcome (its error, e.g.
on `..`, or its basename as the multipart filename). -/
theorem prepareSeparate_filename_fallback (c : ClientState) (file : SeparateInput)
    (options : SeparateOptions) :
    (assertValidFileInput file = .ok () → optFilenameBlank options = true →
        ∃ r, prepareSeparate c file options = .ok r ∧ r.filename = DEFAULT_FILENAME) ∧
    (∀ f, options.filename = some f → (trimList f.data).isEmpty = false →
        assertValidFileInput file = .ok () →
        ((∀ e, sanitizeFilename (jsTrim f) = .error e →
            prepareSeparate c file options = .error e) ∧
         (∀ b, sanitizeFilename (jsTrim f) = .ok b →
            ∃ r, prepareSeparate c file options = .ok r ∧ r.filename = b))) := by
  constructor
  · intro hfile hblank
    unfold optFilenameBlank at hblank
    have hmf : computeMultipartFilename options = pure DEFAULT_FILENAME := by
      unfold computeMultipartFilename
      cases hof : options.filename with
      | none => rfl
      | some f =>
        rw [hof] at hblank
        simp only [] at hblank
        simp [hblank]
    refine ⟨⟨c.baseUrl ++ API_PATH_SEPARATE ++ buildSeparateQueryString options,
      DEFAULT_FILENAME, getAuthHeaders c.apiKey⟩, ?_, rfl⟩
    simp [prepareSeparate, hfile, hmf, Bind.bind, Except.bind, pure, Except.pure]
  · intro f hof hnb hfile
    constructor
    · intro e he
      have hmf : computeMultipartFilename options = .error e := by
        simp [computeMultipartFilename, hof, hnb, he]
      simp [prepareSeparate, hfile, hmf, Bind.bind, Except.bind]
    · intro b hb
      have hmf : computeMultipartFilename options = .ok b := by
        simp [computeMultipartFilename, hof, hnb, hb]
      refine ⟨⟨c.baseUrl ++ API_PATH_SEPARATE ++ buildSeparateQueryString options,
        b, getAuthHeaders c.apiKey⟩, ?_, rfl⟩
      simp [prepareSeparate, hfile, hmf, Bind.bind, Except.bind, pure, Except.pure]

/-- C10 witness: a whitespace-only filename option yields the default
multipart filename `"audio"` and raises nothing. -/
theorem prepareSeparate_filename_fallback_witness :
    ∃ r, prepareSeparate ⟨"https://api.example.com", "", 300000⟩ (.str "song.mp3")
        ⟨some "   ", none, none, none⟩ = .ok r ∧ r.filename = DEFAULT_FILENAME :=
  (prepareSeparate_filename_fallback ⟨"https://api.example.com", "", 300000⟩ (.str "song.mp3")
    ⟨some "   ", none, none, none⟩).1 (by decide) (by decide)

/-- C2: on every accepted body (object, success explicitly `true`,
non-blank textual `job_id`, `output_files` an array), the parsed result has
exactly the spec-prescribed fields: `message` is the body's message when
textual else `""`; `stems` is the body's stems when recognized else
`"2stems"`; `output_files` keeps only the non-empty strings;
`processing_time` is the body's value when it is a number `≥ 0` else `0`. -/
theorem parseSeparateResponse_ok_fields (fs : List (String × JValue)) (j : String)
    (files : List JValue)
    (h1 : jGet (.obj fs) "success" = some (.bool true))
    (h2 : jGet (.obj fs) "job_id" = some (.str j))
    (h3 : (trimList j.data).isEmpty = false)
    (h4 : jGet (.obj fs) "output_files" = some (.arr files)) :
    parseSeparateResponse (.obj fs) =
      .ok { success := true
            message := specMessage (.obj fs)
            job_id := j
            stems := specStems (.obj fs)
            output_files := specOutputFiles files
            processing_time := specProcessingTime (.obj fs) } := by
  simp only [jGet] at h1 h2 h4
  simp [parseSeparateResponse, jIsObjectType, jGet, h1, h2, h3, h4,
    specMessage, specStems, specOutputFiles, specProcessingTime]

/-- C2 witness: the round-trip at the concrete body
`{success: true, job_id: "job-1", output_files: ["vocals.wav",
"drums.wav"], stems: "4stems", processing_time: 12.5}` preserves those
exact field values. -/
theorem parseSeparateResponse_ok_fields_witness :
    parseSeparateResponse (.obj
      [("success", .bool true), ("job_id", .str "job-1"),
       ("output_files", .arr [.str "vocals.wav", .str "drums.wav"]),
       ("stems", .str "4stems"), ("processing_time", .num (25/2))]) =
      .ok ⟨true, "", "job-1", "4stems", ["vocals.wav", "drums.wav"], 25/2⟩ := by
  have h := parseSeparateResponse_ok_fields
    [("success", .bool true), ("job_id", .str "job-1"),
     ("output_files", .arr [.str "vocals.wav", .str "drums.wav"]),
     ("stems", .str "4stems"), ("processing_time", .num (25/2))]
    "job-1" [.str "vocals.wav", .str "drums.wav"] rfl rfl (by decide) rfl
  refine h.trans ?_
  have hle : (0 : Rat) ≤ 25 / 2 := by norm_num
  have hpt : specProcessingTime (.obj
      [("success", .bool true), ("job_id", .str "job-1"),
       ("output_files", .arr [.str "vocals.wav", .str "drums.wav"]),
       ("stems", .str "4stems"), ("processing_time", .num (25/2))]) = 25 / 2 := by
    show (if (0 : Rat) ≤ 25 / 2 then (25 / 2 : Rat) else 0) = 25 / 2
    rw [if_pos hle]
  rw [hpt]
  rfl

/-- C9: the legacy (axios) error mapper classifies, in order of
precedence: a response-bearing error is `API_ERROR` (even if its message
mentions "timeout"), carrying the response's status and the body's `detail`
(stringified) when the body is an object with one, else
`"API error: " ++ status`; otherwise an error whose message contains
`"timeout"` is `TIMEOUT`; otherwise `NETWORK_ERROR`. -/
theorem throwAxiosError_classification (err : AxiosLikeError) (onTimeout onNetwork : String) :
    ((throwAxiosError err onTimeout onNetwork).code = .API_ERROR ↔
        err.response.isSome = true) ∧
    ((throwAxiosError err onTimeout onNetwork).code = .TIMEOUT ↔
        (err.response = none ∧
         ∃ m, err.message = some m ∧ strIncludes m "timeout" = true)) ∧
    ((throwAxiosError err onTimeout onNetwork).code = .NETWORK_ERROR ↔
        (err.response = none ∧
         ∀ m, err.message = some m → strIncludes m "timeout" = false)) ∧
    (∀ resp, err.response = some resp →
        (throwAxiosError err onTimeout onNetwork).status = resp.status ∧
        (throwAxiosError err onTimeout onNetwork).message =
          (match jGet resp.data "detail" with
            | some d => jsToString d
            | none => "API error: " ++ statusTemplate resp.status)) := by
  cases hresp : err.response with
  | some resp =>
    refine ⟨by simp [throwAxiosError, hresp], ?_, ?_, ?_⟩
    · simp [throwAxiosError, hresp]
    · simp [throwAxiosError, hresp]
    · intro resp' hresp'
      injection hresp' with hre
      subst hre
      constructor
      · simp [throwAxiosError, hresp]
      · cases hd : resp.data with
        | obj fields =>
          cases hdl : fields.lookup "detail" with
          | some d => simp [throwAxiosError, hresp, hd, jGet, hdl]
          | none => simp [throwAxiosError, hresp, hd, jGet, hdl]
        | null => simp [throwAxiosError, hresp, hd, jGet]
        | bool b => simp [throwAxiosError, hresp, hd, jGet]
        | num q => simp [throwAxiosError, hresp, hd, jGet]
        | str s => simp [throwAxiosError, hresp, hd, jGet]
        | arr xs => simp [throwAxiosError, hresp, hd, jGet]
  | none =>
    cases hmsg : err.message with
    | some m =>
      by_cases ht : strIncludes m "timeout"
      · exact ⟨by simp [throwAxiosError, hresp, hmsg, ht],
          by simp [throwAxiosError, hresp, hmsg, ht],
          by simp [throwAxiosError, hresp, hmsg, ht],
          by simp [hresp]⟩
      · exact ⟨by simp [throwAxiosError, hresp, hmsg, ht],
          by simp [throwAxiosError, hresp, hmsg, ht],
          by simp [throwAxiosError, hresp, hmsg, ht],
          by simp [hresp]⟩
    | none =>
      exact ⟨by simp [throwAxiosError, hresp, hmsg],
        by simp [throwAxiosError, hresp, hmsg],
        by simp [throwAxiosError, hresp, hmsg],
        by simp [hresp]⟩

/-- C9 witness: a response-bearing error whose message mentions "timeout"
is still classified `API_ERROR` (precedence). -/
theorem throwAxiosError_classification_witness :
    (throwAxiosError ⟨some ⟨some 503, .null⟩, some "timeout of 1ms exceeded"⟩ "T" "N").code
      = .API_ERROR :=
  (throwAxiosError_classification ⟨some ⟨some 503, .null⟩, some "timeout of 1ms exceeded"⟩
    "T" "N").1.mpr rfl

/-- C1: `parseSeparateResponse` fails with `API_ERROR` exactly when the
body is an object whose success flag is explicitly `false` (and then with
the body's textual `message` or the generic default, and the body's numeric
`status` when present); applying the conditions in the source's order, it
fails with `INVALID_RESPONSE` exactly when it is not that ApiError case and
the body is not an object, or its success flag is not explicitly `true`, or
`job_id` is missing / not a string / blank after trimming, or
`output_files` is not an array; in all remaining cases it returns a
result. -/
theorem parseSeparateResponse_classification (body : JValue) :
    (errorCodeOf (parseSeparateResponse body) = some .API_ERROR ↔ apiFailB body = true) ∧
    (errorCodeOf (parseSeparateResponse body) = some .INVALID_RESPONSE ↔
        (apiFailB body = false ∧ invalidShapeB body = true)) ∧
    ((∃ r, parseSeparateResponse body = .ok r) ↔ invalidShapeB body = false) ∧
    (apiFailB body = true →
        parseSeparateResponse body =
          .error ⟨apiFailMessage body, .API_ERROR, apiFailStatus body⟩) := by
  cases body with
  | null =>
    simp [parseSeparateResponse, errorCodeOf, apiFailB, jIsObjB, successFalseB,
      successTrueB, jobIdOkB, outputFilesOkB, invalidShapeB, jGet, jIsObjectType]
  | bool b =>
    simp [parseSeparateResponse, errorCodeOf, apiFailB, jIsObjB, successFalseB,
      successTrueB, jobIdOkB, outputFilesOkB, invalidShapeB, jGet, jIsObjectType]
  | num q =>
    simp [parseSeparateResponse, errorCodeOf, apiFailB, jIsObjB, successFalseB,
      successTrueB, jobIdOkB, outputFilesOkB, invalidShapeB, jGet, jIsObjectType]
  | str s =>
    simp [parseSeparateResponse, errorCodeOf, apiFailB, jIsObjB, successFalseB,
      successTrueB, jobIdOkB, outputFilesOkB, invalidShapeB, jGet, jIsObjectType]
  | arr xs =>
    simp [parseSeparateResponse, errorCodeOf, apiFailB, jIsObjB, successFalseB,
      successTrueB, jobIdOkB, outputFilesOkB, invalidShapeB, jGet, jIsObjectType]
  | obj fs =>
    cases hs : List.lookup "success" fs with
    | none =>
      simp [parseSeparateResponse, errorCodeOf, apiFailB, jIsObjB, successFalseB,
        successTrueB, jobIdOkB, outputFilesOkB, invalidShapeB, jGet, jIsObjectType, hs]
    | some v =>
      cases v with
      | null =>
        simp [parseSeparateResponse, errorCodeOf, apiFailB, jIsObjB, successFalseB,
          successTrueB, jobIdOkB, outputFilesOkB, invalidShapeB, jGet, jIsObjectType, hs]
      | num q =>
        simp [parseSeparateResponse, errorCodeOf, apiFailB, jIsObjB, successFalseB,
          successTrueB, jobIdOkB, outputFilesOkB, invalidShapeB, jGet, jIsObjectType, hs]
      | str s =>
        simp [parseSeparateResponse, errorCodeOf, apiFailB, jIsObjB, successFalseB,
          successTrueB, jobIdOkB, outputFilesOkB, invalidShapeB, jGet, jIsObjectType, hs]
      | arr a =>
        simp [parseSeparateResponse, errorCodeOf, apiFailB, jIsObjB, successFalseB,
          successTrueB, jobIdOkB, outputFilesOkB, invalidShapeB, jGet, jIsObjectType, hs]
      | obj o =>
        simp [parseSeparateResponse, errorCodeOf, apiFailB, jIsObjB, successFalseB,
          successTrueB, jobIdOkB, outputFilesOkB, invalidShapeB, jGet, jIsObjectType, hs]
      | bool b =>
        cases b with
        | false =>
          simp [parseSeparateResponse, errorCodeOf, apiFailB, jIsObjB, successFalseB,
            successTrueB, jobIdOkB, outputFilesOkB, invalidShapeB, apiFailMessage,
            apiFailStatus, jGet, jIsObjectType, hs]
        | true =>
          cases hj : List.lookup "job_id" fs with
          | none =>
            simp [parseSeparateResponse, errorCodeOf, apiFailB, jIsObjB, successFalseB,
              successTrueB, jobIdOkB, outputFilesOkB, invalidShapeB, jGet,
              jIsObjectType, hs, hj]
          | some jv =>
            cases jv with
            | null =>
              simp [parseSeparateResponse, errorCodeOf, apiFailB, jIsObjB, successFalseB,
                successTrueB, jobIdOkB, outputFilesOkB, invalidShapeB, jGet,
                jIsObjectType, hs, hj]
            | bool jb =>
              simp [parseSeparateResponse, errorCodeOf, apiFailB, jIsObjB, successFalseB,
                successTrueB, jobIdOkB, outputFilesOkB, invalidShapeB, jGet,
                jIsObjectType, hs, hj]
            | num jq =>
              simp [parseSeparateResponse, errorCodeOf, apiFailB, jIsObjB, successFalseB,
                successTrueB, jobIdOkB, outputFilesOkB, invalidShapeB, jGet,
                jIsObjectType, hs, hj]
            | arr ja =>
              simp [parseSeparateResponse, errorCodeOf, apiFailB, jIsObjB, successFalseB,
                successTrueB, jobIdOkB, outputFilesOkB, invalidShapeB, jGet,
                jIsObjectType, hs, hj]
            | obj jo =>
              simp [parseSeparateResponse, errorCodeOf, apiFailB, jIsObjB, successFalseB,
                successTrueB, jobIdOkB, outputFilesOkB, invalidShapeB, jGet,
                jIsObjectType, hs, hj]
            | str j =>
              by_cases hjt : (trimList j.data).isEmpty
              · simp [parseSeparateResponse, errorCodeOf, apiFailB, jIsObjB,
                  successFalseB, successTrueB, jobIdOkB, outputFilesOkB, invalidShapeB,
                  jGet, jIsObjectType, hs, hj, hjt]
              · cases hf : List.lookup "output_files" fs with
                | none =>
                  simp [parseSeparateResponse, errorCodeOf, apiFailB, jIsObjB,
                    successFalseB, successTrueB, jobIdOkB, outputFilesOkB, invalidShapeB,
                    jGet, jIsObjectType, hs, hj, hjt, hf]
                | some fv =>
                  cases fv with
                  | arr files =>
                    simp [parseSeparateResponse, errorCodeOf, apiFailB, jIsObjB,
                      successFalseB, successTrueB, jobIdOkB, outputFilesOkB,
                      invalidShapeB, jGet, jIsObjectType, hs, hj, hjt, hf]
                  | null =>
                    simp [parseSeparateResponse, errorCodeOf, apiFailB, jIsObjB,
                      successFalseB, successTrueB, jobIdOkB, outputFilesOkB,
                      invalidShapeB, jGet, jIsObjectType, hs, hj, hjt, hf]
                  | bool fb =>
                    simp [parseSeparateResponse, errorCodeOf, apiFailB, jIsObjB,
                      successFalseB, successTrueB, jobIdOkB, outputFilesOkB,
                      invalidShapeB, jGet, jIsObjectType, hs, hj, hjt, hf]
                  | num fq =>
                    simp [parseSeparateResponse, errorCodeOf, apiFailB, jIsObjB,
                      successFalseB, successTrueB, jobIdOkB, outputFilesOkB,
                      invalidShapeB, jGet, jIsObjectType, hs, hj, hjt, hf]
                  | str fsj =>
                    simp [parseSeparateResponse, errorCodeOf, apiFailB, jIsObjB,
                      successFalseB, successTrueB, jobIdOkB, outputFilesOkB,
                      invalidShapeB, jGet, jIsObjectType, hs, hj, hjt, hf]
                  | obj fo =>
                    simp [parseSeparateResponse, errorCodeOf, apiFailB, jIsObjB,
                      successFalseB, successTrueB, jobIdOkB, outputFilesOkB,
                      invalidShapeB, jGet, jIsObjectType, hs, hj, hjt, hf]

/-- C1 witness: the explicit-failure body
`{success: false, message: "bad audio", status: 400}` is rejected with
`API_ERROR`, message `"bad audio"`, status `400`. -/
theorem parseSeparateResponse_classification_witness :
    parseSeparateResponse (.obj
      [("success", .bool false), ("message", .str "bad audio"), ("status", .num 400)]) =
      .error ⟨"bad audio", .API_ERROR, some 400⟩ := by
  have h := (parseSeparateResponse_classification (.obj
    [("success", .bool false), ("message", .str "bad audio"),
     ("status", .num 400)])).2.2.2 (by decide)
  exact h.trans (by decide)

end MonarchStems
